import Mathlib

/-!
# Option_Premium_ROC — verification of the yield evaluation and selection engine

Shallow embedding of the two pipelines of the repository:

* `src/Option_Premium_Return_Yield.py` — the Fixed-Strike Reporter: for one
  target strike, walk the expirations inside a time horizon and derive a
  per-expiration yield row.
* `src/Option_Seek_Strike_and_Expire_Date_to_Gain_Return.py` — the Best-Strike
  Seeker: for each expiration, derive yields for all liquid strikes and pick
  the safest strike meeting a minimum annualized-return threshold.

Modelling conventions:
* Prices, premiums and percentages (Python / pandas floats) are modelled as
  rationals `ℚ`; the claims under scrutiny are arithmetic identities and
  order/selection facts that do not hinge on floating-point rounding.
* Calendar dates are modelled by their day number (`Int`); the Python
  `(exp_date - today).days` becomes integer subtraction of day numbers.
* A chain fetch is a function from the expiration day to an outcome.  The
  Reporter wraps its whole loop body in `try/except Exception: continue`, so
  its fetch is `Int → Option (List Quote)` (`none` = any exception).  The
  Seeker's `get_option_data` distinguishes exception messages, so its fetch
  returns `RawFetch` carrying either the two chains or an exception message.
* `ℚ` division by zero is total and yields `0` (the Python code would produce
  a float `inf`/`nan` or raise); claims about zero divisors are stated as
  facts about the divisor itself, never through the totalized quotient.
-/

/-- One row of an option chain, as consumed from the fetched data frame:
`strike`, `bid`, `ask`, `lastPrice`, `impliedVolatility` columns. -/
structure Quote where
  strike : ℚ
  bid : ℚ
  ask : ℚ
  lastPrice : ℚ
  impliedVolatility : ℚ
deriving Repr, DecidableEq

/-- Strategy side.  The Python scripts branch on `"Put" in option_type`;
the two selectable labels make this a two-valued choice. -/
inductive Side where
  | put
  | call
deriving Repr, DecidableEq

/-- Clamp of the day difference, `if dte <= 0: dte = 1`
(`Option_Premium_Return_Yield.py` line 108, seeker line 126). -/
def clampDte (d : Int) : Int := if d ≤ 0 then 1 else d

/-! ## Fixed-Strike Reporter (`Option_Premium_Return_Yield.py`) -/

/-- Premium rule of the Reporter (line 100):
`premium = (bid + ask) / 2 if (bid > 0 and ask > 0) else last`. -/
def reporterPremium (q : Quote) : ℚ :=
  if 0 < q.bid ∧ 0 < q.ask then (q.bid + q.ask) / 2 else q.lastPrice

/-- Capital basis of the Reporter (line 111):
`capital = target_strike if "Put" in option_type else current_price`. -/
def capitalFor (side : Side) (targetStrike spot : ℚ) : ℚ :=
  if side = Side.put then targetStrike else spot

/-- One derived row of the Reporter (the dict appended at lines 115–121,
kept as numbers before display formatting; `capital` is the divisor used at
line 112 and is carried along as part of the derived metrics). -/
structure RepRow where
  expDay : Int
  dte : Int
  iv : ℚ
  premium : ℚ
  capital : ℚ
  annualized : ℚ
deriving Repr, DecidableEq

/-- Row lookup at the target strike (line 90 and line 93):
`contract = options_df[options_df['strike'] == target_strike]` followed by
`contract.iloc[0]` — the first row with exactly the target strike. -/
def findStrike (targetStrike : ℚ) (chain : List Quote) : Option Quote :=
  (chain.filter (fun q => decide (q.strike = targetStrike))).head?

/-- Loop body of the Reporter for one expiration (lines 90–121): locate the
target strike; if present, derive premium, DTE (clamped), capital, ROC and
annualized return. -/
def reporterRow (side : Side) (targetStrike spot : ℚ) (today d : Int)
    (chain : List Quote) : Option RepRow :=
  match findStrike targetStrike chain with
  | none => none
  | some q =>
    let premium := reporterPremium q
    let dte := clampDte (d - today)
    let capital := capitalFor side targetStrike spot
    let roc := premium / capital
    some { expDay := d, dte := dte, iv := q.impliedVolatility,
           premium := premium, capital := capital,
           annualized := roc * (365 / (dte : ℚ)) * 100 }

/-- Time-horizon filter (lines 64–73): keep an expiration `d` iff
`0 < (d - today).days <= max_days`, with `today` captured once before
the loop. -/
def analyzeDates (today maxDays : Int) (exps : List Int) : List Int :=
  exps.filter (fun d => decide (0 < d - today) && decide (d - today ≤ maxDays))

/-- Accumulating loop of the Reporter (lines 82–123): each date is fetched
inside `try/except: continue`, and a derived row — when the strike is found —
is appended to `data_list`. -/
def reportLoop (side : Side) (targetStrike spot : ℚ) (today : Int)
    (fetch : Int → Option (List Quote)) :
    List Int → List RepRow → List RepRow
  | [], acc => acc
  | d :: ds, acc =>
    match fetch d with
    | none => reportLoop side targetStrike spot today fetch ds acc
    | some chain =>
      match reporterRow side targetStrike spot today d chain with
      | none => reportLoop side targetStrike spot today fetch ds acc
      | some row => reportLoop side targetStrike spot today fetch ds (acc ++ [row])

/-- Rows produced by the Reporter: the loop over `analyze_dates` starting
from the empty `data_list`. -/
def report (side : Side) (targetStrike spot : ℚ) (today maxDays : Int)
    (exps : List Int) (fetch : Int → Option (List Quote)) : List RepRow :=
  reportLoop side targetStrike spot today fetch (analyzeDates today maxDays exps) []

/-- What the Reporter emits after the loop (lines 125–140): a table/chart of
the collected rows when `data_list` is non-empty, otherwise the
"no active contracts found" warning.  No further value is computed from the
rows — in particular no best-row recommendation appears in the source. -/
inductive RepDisplay where
  | table (rows : List RepRow)
  | warnNoContracts
deriving Repr, DecidableEq

/-- Tail of the Reporter (lines 125–140): `if data_list: table/chart else
warning`. -/
def reportDisplay (side : Side) (targetStrike spot : ℚ) (today maxDays : Int)
    (exps : List Int) (fetch : Int → Option (List Quote)) : RepDisplay :=
  let rows := report side targetStrike spot today maxDays exps fetch
  if rows.isEmpty then RepDisplay.warnNoContracts else RepDisplay.table rows

/-- Modelled from the spec (§4.2), not from the source: `best` = the row with
maximal `annualizedReturnPct`, ties broken in favour of the first-encountered
(earliest) expiration.  The source file contains no such computation; this
definition exists to compare the spec's claimed recommendation against the
source-derived `reportDisplay`. -/
def specBestRow : List RepRow → Option RepRow
  | [] => none
  | r :: rs => some (rs.foldl (fun b x => if b.annualized < x.annualized then x else b) r)

/-! ## Best-Strike Seeker (`Option_Seek_Strike_and_Expire_Date_to_Gain_Return.py`) -/

/-- Outcome of one call of the raw chain fetch wrapped by `get_option_data`
(lines 34–45): either the put and call chains of the expiration, or an
exception carrying its message `str(e)`. -/
inductive RawFetch where
  | ok (puts calls : List Quote)
  | exn (msg : String)

/-- Test whether `pat` occurs contiguously in `s` (lists of characters):
the Python substring test `pat in s`. -/
def listHasRun (pat : List Char) : List Char → Bool
  | [] => pat.isEmpty
  | c :: rest => matchesAt pat (c :: rest) || listHasRun pat rest
where
  matchesAt : List Char → List Char → Bool
    | [], _ => true
    | _ :: _, [] => false
    | a :: as, b :: bs => a == b && matchesAt as bs

/-- Python `pat in s` on strings. -/
def strContains (s pat : String) : Bool := listHasRun pat.data s.data

/-- Exception-message marker of a provider rate limit
(line 57: `"Too Many Requests" in str(e)`). -/
def rateLimitMsg : String := "Too Many Requests"

/-- Result of `get_option_data` (lines 30–59): the cleaned chain, `None`
(modelled `noChain`), or the string sentinel `"RATE_LIMIT"`. -/
inductive ChainResult where
  | rateLimit
  | noChain
  | chain (rows : List Quote)
deriving Repr, DecidableEq

/-- The chain of the requested side, filtered to liquid rows (lines 42–48):
`chain = chain[chain['bid'] > 0]`. -/
def liquidChain (side : Side) (puts calls : List Quote) : List Quote :=
  (if side = Side.put then puts else calls).filter (fun q => decide (0 < q.bid))

/-- `get_option_data` (lines 30–59): select the side's chain, keep `bid > 0`
rows, return `None` when empty; an exception returns `"RATE_LIMIT"` when its
message contains `"Too Many Requests"` and `None` otherwise. -/
def get_option_data (side : Side) (raw : RawFetch) : ChainResult :=
  match raw with
  | RawFetch.exn msg =>
    if strContains msg rateLimitMsg then ChainResult.rateLimit else ChainResult.noChain
  | RawFetch.ok puts calls =>
    let chain := liquidChain side puts calls
    if chain.isEmpty then ChainResult.noChain else ChainResult.chain chain

/-- Per-row premium of the Seeker (line 116):
`chain['premium'] = (chain['bid'] + chain['ask']) / 2` — unconditional, with
no `lastPrice` fallback. -/
def seekerPremium (q : Quote) : ℚ := (q.bid + q.ask) / 2

/-- Per-row capital of the Seeker (lines 118–121): the strike for puts, the
spot price for calls. -/
def seekerCapital (side : Side) (spot : ℚ) (q : Quote) : ℚ :=
  if side = Side.put then q.strike else spot

/-- Per-row annualized return of the Seeker (line 128):
`(premium / capital) * (365 / dte) * 100`. -/
def seekerRoi (side : Side) (spot : ℚ) (dte : Int) (q : Quote) : ℚ :=
  (seekerPremium q / seekerCapital side spot q) * (365 / (dte : ℚ)) * 100

/-- Threshold filter (line 131):
`qualified = chain[chain['roi_annual'] >= target_return]`. -/
def qualifiers (side : Side) (spot target : ℚ) (dte : Int)
    (rows : List Quote) : List Quote :=
  rows.filter (fun q => decide (target ≤ seekerRoi side spot dte q))

/-- One comparison step of `sort_values(by='strike')` followed by `iloc[0]`:
keep the row with the smaller strike (put, ascending sort) or the larger
strike (call, descending sort); on equal strikes the earlier row stays. -/
def betterStrike : Side → Quote → Quote → Quote
  | Side.put, a, b => if b.strike < a.strike then b else a
  | Side.call, a, b => if a.strike < b.strike then b else a

/-- Row selection among qualifiers (lines 134–138): the head of the
strike-sorted qualifiers — the qualifier with the extremal strike. -/
def selectBest (side : Side) : List Quote → Option Quote
  | [] => none
  | q :: qs => some (qs.foldl (betterStrike side) q)

/-- Safety gap of the selected row (lines 136 and 139), as a fraction of
spot. -/
def safetyGapFor (side : Side) (spot strike : ℚ) : ℚ :=
  if side = Side.put then (spot - strike) / spot else (strike - spot) / spot

/-- One result row of the Seeker (the dict appended at lines 141–149, kept as
numbers; `capital` is the divisor from line 128 carried along as part of the
derived metrics). -/
structure SeekResult where
  expDay : Int
  dte : Int
  strike : ℚ
  iv : ℚ
  premium : ℚ
  capital : ℚ
  roiAnnual : ℚ
  safetyGap : ℚ
deriving Repr, DecidableEq

/-- Outcome of one iteration of the scan loop (lines 98–149) for one
expiration. -/
inductive StepOutcome where
  | rateLimited
  | skipped
  | found (r : SeekResult)
deriving Repr, DecidableEq

/-- Derived metrics recorded for the selected row of one expiration
(the dict of lines 141–149 together with the `capital` divisor). -/
def mkSeekResult (side : Side) (spot : ℚ) (today d : Int) (q : Quote) : SeekResult :=
  { expDay := d, dte := clampDte (d - today), strike := q.strike,
    iv := q.impliedVolatility,
    premium := seekerPremium q,
    capital := seekerCapital side spot q,
    roiAnnual := seekerRoi side spot (clampDte (d - today)) q,
    safetyGap := safetyGapFor side spot q.strike }

/-- Loop body of the Seeker for one expiration (lines 98–149): dispatch on
`get_option_data`; on a chain, derive the per-row metrics, filter by the
threshold, and select the extremal-strike qualifier. -/
def scanExpiration (side : Side) (spot target : ℚ) (today d : Int)
    (raw : RawFetch) : StepOutcome :=
  match get_option_data side raw with
  | ChainResult.rateLimit => StepOutcome.rateLimited
  | ChainResult.noChain => StepOutcome.skipped
  | ChainResult.chain rows =>
    if rows.isEmpty then StepOutcome.skipped
    else
      match selectBest side (qualifiers side spot target (clampDte (d - today)) rows) with
      | none => StepOutcome.skipped
      | some best => StepOutcome.found (mkSeekResult side spot today d best)

/-- Overall outcome of the scan: the collected result rows and whether the
scan stopped on the rate-limit sentinel (lines 103–105: `break` after the
distinct rate-limit error message). -/
structure SeekOutcome where
  results : List SeekResult
  rateLimited : Bool
deriving Repr, DecidableEq

/-- Scan loop of the Seeker (lines 93–149) over the expirations in order:
a rate-limit sentinel stops the whole scan keeping earlier results; a
skipped expiration contributes nothing; a found row is appended. -/
def seek (side : Side) (spot target : ℚ) (today : Int)
    (fetch : Int → RawFetch) : List Int → SeekOutcome
  | [] => { results := [], rateLimited := false }
  | d :: ds =>
    match scanExpiration side spot target today d (fetch d) with
    | StepOutcome.rateLimited => { results := [], rateLimited := true }
    | StepOutcome.skipped => seek side spot target today fetch ds
    | StepOutcome.found r =>
      let rest := seek side spot target today fetch ds
      { results := r :: rest.results, rateLimited := rest.rateLimited }

/-- Hypothesis predicate on a fetched chain: the quotes of a successful fetch
have nonnegative ask and positive strike, the well-formedness the spec's data
model ascribes to provider quotes. -/
def quotesOk : RawFetch → Bool
  | RawFetch.ok puts calls =>
    (puts ++ calls).all (fun q => decide (0 ≤ q.ask) && decide (0 < q.strike))
  | RawFetch.exn _ => true

/-! ## Facts about the shared primitives -/

theorem clampDte_one_le (d : Int) : 1 ≤ clampDte d := by
  unfold clampDte; split <;> omega

theorem clampDte_of_pos {d : Int} (h : 0 < d) : clampDte d = d := by
  unfold clampDte; split <;> omega

theorem mem_analyzeDates {today maxDays d : Int} {exps : List Int}
    (h : d ∈ analyzeDates today maxDays exps) :
    d ∈ exps ∧ 0 < d - today ∧ d - today ≤ maxDays := by
  unfold analyzeDates at h
  rw [List.mem_filter] at h
  obtain ⟨hm, hb⟩ := h
  simp only [Bool.and_eq_true, decide_eq_true_eq] at hb
  exact ⟨hm, hb.1, hb.2⟩

/-! ## Facts about the Reporter -/

theorem reporterRow_inv {side : Side} {targetStrike spot : ℚ} {today d : Int}
    {chain : List Quote} {row : RepRow}
    (h : reporterRow side targetStrike spot today d chain = some row) :
    ∃ q, findStrike targetStrike chain = some q ∧
      row = { expDay := d, dte := clampDte (d - today), iv := q.impliedVolatility,
              premium := reporterPremium q,
              capital := capitalFor side targetStrike spot,
              annualized := (reporterPremium q / capitalFor side targetStrike spot) *
                (365 / ((clampDte (d - today) : Int) : ℚ)) * 100 } := by
  unfold reporterRow at h
  cases hf : findStrike targetStrike chain with
  | none => rw [hf] at h; exact absurd h (by simp)
  | some q =>
    rw [hf] at h
    simp only [Option.some.injEq] at h
    exact ⟨q, rfl, h.symm⟩

theorem reportLoop_eq (side : Side) (targetStrike spot : ℚ) (today : Int)
    (fetch : Int → Option (List Quote)) (ds : List Int) :
    ∀ acc : List RepRow,
      reportLoop side targetStrike spot today fetch ds acc =
        acc ++ ds.filterMap
          (fun d => (fetch d).bind (reporterRow side targetStrike spot today d)) := by
  induction ds with
  | nil => intro acc; simp [reportLoop]
  | cons d ds ih =>
    intro acc
    unfold reportLoop
    cases hf : fetch d with
    | none => simp [hf, ih, List.filterMap_cons]
    | some chain =>
      cases hr : reporterRow side targetStrike spot today d chain with
      | none => simp [hf, hr, ih, List.filterMap_cons]
      | some row => simp [hf, hr, ih, List.filterMap_cons]

theorem report_eq (side : Side) (targetStrike spot : ℚ) (today maxDays : Int)
    (exps : List Int) (fetch : Int → Option (List Quote)) :
    report side targetStrike spot today maxDays exps fetch =
      (analyzeDates today maxDays exps).filterMap
        (fun d => (fetch d).bind (reporterRow side targetStrike spot today d)) := by
  unfold report
  rw [reportLoop_eq]
  simp

theorem report_mem {side : Side} {targetStrike spot : ℚ} {today maxDays : Int}
    {exps : List Int} {fetch : Int → Option (List Quote)} {row : RepRow}
    (h : row ∈ report side targetStrike spot today maxDays exps fetch) :
    ∃ d ∈ analyzeDates today maxDays exps, ∃ chain,
      fetch d = some chain ∧
      reporterRow side targetStrike spot today d chain = some row := by
  rw [report_eq] at h
  simp only [List.mem_filterMap, Option.bind_eq_some] at h
  obtain ⟨d, hd, chain, hc, hr⟩ := h
  exact ⟨d, hd, chain, hc, hr⟩

/-! ## Facts about the Seeker -/

theorem mem_liquidChain {side : Side} {puts calls : List Quote} {q : Quote}
    (h : q ∈ liquidChain side puts calls) :
    0 < q.bid ∧ q ∈ puts ++ calls := by
  unfold liquidChain at h
  rw [List.mem_filter] at h
  obtain ⟨hm, hb⟩ := h
  refine ⟨by simpa using hb, ?_⟩
  rw [List.mem_append]
  cases side
  · simp at hm; exact Or.inl hm
  · simp at hm; exact Or.inr hm

theorem get_option_data_chain {side : Side} {raw : RawFetch} {rows : List Quote}
    (h : get_option_data side raw = ChainResult.chain rows) :
    ∃ puts calls, raw = RawFetch.ok puts calls ∧
      rows = liquidChain side puts calls := by
  cases raw with
  | exn msg =>
    simp only [get_option_data] at h
    split at h <;> simp at h
  | ok puts calls =>
    refine ⟨puts, calls, rfl, ?_⟩
    simp only [get_option_data] at h
    split at h
    · simp at h
    · simp only [ChainResult.chain.injEq] at h
      exact h.symm

theorem mem_qualifiers {side : Side} {spot target : ℚ} {dte : Int}
    {rows : List Quote} {q : Quote}
    (h : q ∈ qualifiers side spot target dte rows) :
    q ∈ rows ∧ target ≤ seekerRoi side spot dte q := by
  unfold qualifiers at h
  rw [List.mem_filter] at h
  exact ⟨h.1, by simpa using h.2⟩

/-- Order relation selected by the sort direction: the chosen row is "at
least as safe" as the other when its strike is smaller (put) or larger
(call). -/
def strikeLE : Side → Quote → Quote → Prop
  | Side.put, a, b => a.strike ≤ b.strike
  | Side.call, a, b => b.strike ≤ a.strike

theorem strikeLE_refl (side : Side) (a : Quote) : strikeLE side a a := by
  cases side <;> simp only [strikeLE] <;> exact le_refl _

theorem strikeLE_trans {side : Side} {a b c : Quote}
    (h₁ : strikeLE side a b) (h₂ : strikeLE side b c) : strikeLE side a c := by
  cases side <;> simp only [strikeLE] at h₁ h₂ ⊢ <;> exact le_trans (by assumption) (by assumption)

theorem betterStrike_left (side : Side) (a b : Quote) :
    strikeLE side (betterStrike side a b) a := by
  cases side <;> simp only [strikeLE, betterStrike] <;> split
  · exact le_of_lt (by assumption)
  · exact le_refl _
  · exact le_of_lt (by assumption)
  · exact le_refl _

theorem betterStrike_right (side : Side) (a b : Quote) :
    strikeLE side (betterStrike side a b) b := by
  cases side <;> simp only [strikeLE, betterStrike] <;> split
  · exact le_refl _
  · exact le_of_not_lt (by assumption)
  · exact le_refl _
  · exact le_of_not_lt (by assumption)

theorem betterStrike_cases (side : Side) (a b : Quote) :
    betterStrike side a b = a ∨ betterStrike side a b = b := by
  cases side <;> simp only [betterStrike] <;> split
  · exact Or.inr rfl
  · exact Or.inl rfl
  · exact Or.inr rfl
  · exact Or.inl rfl

theorem foldl_betterStrike_mem (side : Side) (l : List Quote) :
    ∀ a : Quote, l.foldl (betterStrike side) a ∈ a :: l := by
  induction l with
  | nil => intro a; simp
  | cons b l ih =>
    intro a
    rw [List.foldl_cons]
    have hm := ih (betterStrike side a b)
    rcases betterStrike_cases side a b with hab | hab <;>
      rw [hab] at hm ⊢ <;> simp only [List.mem_cons] at hm ⊢ <;> tauto

theorem foldl_betterStrike_le (side : Side) (l : List Quote) :
    ∀ a x : Quote, x ∈ a :: l → strikeLE side (l.foldl (betterStrike side) a) x := by
  induction l with
  | nil =>
    intro a x hx
    simp only [List.mem_cons, List.not_mem_nil, or_false] at hx
    subst hx
    exact strikeLE_refl side x
  | cons b l ih =>
    intro a x hx
    rw [List.foldl_cons]
    simp only [List.mem_cons] at hx
    rcases hx with h₁ | h₁ | hmem
    · rw [h₁]
      exact strikeLE_trans (ih _ _ (List.mem_cons_self _ _)) (betterStrike_left side a b)
    · rw [h₁]
      exact strikeLE_trans (ih _ _ (List.mem_cons_self _ _)) (betterStrike_right side a b)
    · exact ih _ _ (List.mem_cons_of_mem _ hmem)

theorem selectBest_mem {side : Side} {l : List Quote} {q : Quote}
    (h : selectBest side l = some q) : q ∈ l := by
  cases l with
  | nil => simp [selectBest] at h
  | cons a l =>
    simp only [selectBest, Option.some.injEq] at h
    subst h
    exact foldl_betterStrike_mem side l a

theorem selectBest_le {side : Side} {l : List Quote} {q : Quote}
    (h : selectBest side l = some q) : ∀ x ∈ l, strikeLE side q x := by
  cases l with
  | nil => simp [selectBest] at h
  | cons a l =>
    simp only [selectBest, Option.some.injEq] at h
    subst h
    intro x hx
    exact foldl_betterStrike_le side l a x hx

theorem scanExpiration_found {side : Side} {spot target : ℚ} {today d : Int}
    {raw : RawFetch} {r : SeekResult}
    (h : scanExpiration side spot target today d raw = StepOutcome.found r) :
    ∃ rows q, get_option_data side raw = ChainResult.chain rows ∧
      selectBest side (qualifiers side spot target (clampDte (d - today)) rows) = some q ∧
      r = mkSeekResult side spot today d q := by
  unfold scanExpiration at h
  cases hg : get_option_data side raw with
  | rateLimit => rw [hg] at h; simp at h
  | noChain => rw [hg] at h; simp at h
  | chain rows =>
    rw [hg] at h
    simp only at h
    split at h
    · simp at h
    · cases hb : selectBest side (qualifiers side spot target (clampDte (d - today)) rows) with
      | none => rw [hb] at h; simp at h
      | some q =>
        rw [hb] at h
        simp only [StepOutcome.found.injEq] at h
        exact ⟨rows, q, rfl, hb, h.symm⟩

theorem scanExpiration_skipped_of_no_qualifier {side : Side} {spot target : ℚ}
    {today d : Int} {raw : RawFetch} {rows : List Quote}
    (hg : get_option_data side raw = ChainResult.chain rows)
    (hq : qualifiers side spot target (clampDte (d - today)) rows = []) :
    scanExpiration side spot target today d raw = StepOutcome.skipped := by
  unfold scanExpiration
  rw [hg]
  simp only
  split
  · rfl
  · rw [hq]; rfl

theorem seek_cons_skipped {side : Side} {spot target : ℚ} {today : Int}
    {fetch : Int → RawFetch} {d : Int} {ds : List Int}
    (h : scanExpiration side spot target today d (fetch d) = StepOutcome.skipped) :
    seek side spot target today fetch (d :: ds) = seek side spot target today fetch ds := by
  simp only [seek, h]

theorem seek_cons_found {side : Side} {spot target : ℚ} {today : Int}
    {fetch : Int → RawFetch} {d : Int} {ds : List Int} {r : SeekResult}
    (h : scanExpiration side spot target today d (fetch d) = StepOutcome.found r) :
    seek side spot target today fetch (d :: ds) =
      { results := r :: (seek side spot target today fetch ds).results,
        rateLimited := (seek side spot target today fetch ds).rateLimited } := by
  simp only [seek, h]

theorem seek_cons_rateLimited {side : Side} {spot target : ℚ} {today : Int}
    {fetch : Int → RawFetch} {d : Int} {ds : List Int}
    (h : scanExpiration side spot target today d (fetch d) = StepOutcome.rateLimited) :
    seek side spot target today fetch (d :: ds) =
      { results := [], rateLimited := true } := by
  simp only [seek, h]

theorem seek_results_mem {side : Side} {spot target : ℚ} {today : Int}
    {fetch : Int → RawFetch} {ds : List Int} {r : SeekResult}
    (h : r ∈ (seek side spot target today fetch ds).results) :
    ∃ d ∈ ds, scanExpiration side spot target today d (fetch d) = StepOutcome.found r := by
  induction ds with
  | nil => simp [seek] at h
  | cons d ds ih =>
    cases hs : scanExpiration side spot target today d (fetch d) with
    | rateLimited => rw [seek_cons_rateLimited hs] at h; simp at h
    | skipped =>
      rw [seek_cons_skipped hs] at h
      obtain ⟨e, he, hse⟩ := ih h
      exact ⟨e, List.mem_cons_of_mem _ he, hse⟩
    | found r₂ =>
      rw [seek_cons_found hs] at h
      simp only [List.mem_cons] at h
      rcases h with h | h
      · rw [← h] at hs
        exact ⟨d, List.mem_cons_self _ _, hs⟩
      · obtain ⟨e, he, hse⟩ := ih h
        exact ⟨e, List.mem_cons_of_mem _ he, hse⟩

theorem seek_halt {side : Side} {spot target : ℚ} {today : Int}
    {fetch : Int → RawFetch} :
    ∀ (earlier : List Int) {d : Int} (later : List Int),
      scanExpiration side spot target today d (fetch d) = StepOutcome.rateLimited →
      (∀ e ∈ earlier,
        scanExpiration side spot target today e (fetch e) ≠ StepOutcome.rateLimited) →
      seek side spot target today fetch (earlier ++ d :: later) =
        { results := (seek side spot target today fetch earlier).results,
          rateLimited := true } ∧
      (seek side spot target today fetch earlier).rateLimited = false := by
  intro earlier
  induction earlier with
  | nil =>
    intro d later hd _
    rw [List.nil_append, seek_cons_rateLimited hd]
    exact ⟨rfl, rfl⟩
  | cons e es ih =>
    intro d later hd hpre
    have hne := hpre e (List.mem_cons_self _ _)
    have hrest : ∀ e' ∈ es,
        scanExpiration side spot target today e' (fetch e') ≠ StepOutcome.rateLimited :=
      fun e' he' => hpre e' (List.mem_cons_of_mem _ he')
    obtain ⟨ih₁, ih₂⟩ := ih later hd hrest
    cases hs : scanExpiration side spot target today e (fetch e) with
    | rateLimited => exact absurd hs hne
    | skipped =>
      rw [List.cons_append, seek_cons_skipped hs, seek_cons_skipped hs]
      exact ⟨ih₁, ih₂⟩
    | found r =>
      rw [List.cons_append, seek_cons_found hs, seek_cons_found hs, ih₁]
      exact ⟨rfl, ih₂⟩

/-! ## Claims -/

/-- C1, counterexample: a quote with `bid = 2 > 0`, `ask = 0`, `lastPrice = 5`
passes the Seeker's `bid > 0` liquidity filter and is processed with premium
`(2 + 0) / 2 = 1`, not its `lastPrice = 5`, although `bid > 0 ∧ ask > 0`
fails — the Seeker applies no `lastPrice` fallback. -/
theorem C1_counterexample :
    seek Side.put 150 0 0 (fun _ => RawFetch.ok [Quote.mk 100 2 0 5 0] []) [365] =
      { results := [SeekResult.mk 365 365 100 0 1 100 1 (1/3)], rateLimited := false } ∧
    ¬ (0 < (Quote.mk 100 2 0 5 0).bid ∧ 0 < (Quote.mk 100 2 0 5 0).ask) ∧
    (SeekResult.mk 365 365 100 0 1 100 1 (1/3)).premium ≠
      (Quote.mk 100 2 0 5 0).lastPrice := by
  with_unfolding_all decide

/-- C1 (amended): the Reporter's premium follows the mid-or-last rule —
`(bid + ask) / 2` when `bid > 0` and `ask > 0`, else `lastPrice` — while the
Seeker's premium is `(bid + ask) / 2` unconditionally for every processed
quote, each of which has `bid > 0` from the liquidity filter. -/
theorem C1_premium_rule
    (side₁ : Side) (targetStrike spot₁ : ℚ) (today₁ maxDays : Int)
    (exps : List Int) (fetch₁ : Int → Option (List Quote))
    (side₂ : Side) (spot₂ target : ℚ) (today₂ : Int)
    (fetch₂ : Int → RawFetch) (ds : List Int) :
    (∀ row ∈ report side₁ targetStrike spot₁ today₁ maxDays exps fetch₁,
      ∀ chain q, fetch₁ row.expDay = some chain →
        findStrike targetStrike chain = some q →
        row.premium =
          (if 0 < q.bid ∧ 0 < q.ask then (q.bid + q.ask) / 2 else q.lastPrice)) ∧
    (∀ r ∈ (seek side₂ spot₂ target today₂ fetch₂ ds).results,
      ∀ rows q,
        get_option_data side₂ (fetch₂ r.expDay) = ChainResult.chain rows →
        selectBest side₂
          (qualifiers side₂ spot₂ target (clampDte (r.expDay - today₂)) rows) = some q →
        0 < q.bid ∧ r.strike = q.strike ∧ r.premium = (q.bid + q.ask) / 2) := by
  constructor
  · intro row hrow chain q hchain hq
    obtain ⟨d, hd, chain', hc, hr⟩ := report_mem hrow
    obtain ⟨q', hf', rfl⟩ := reporterRow_inv hr
    have h1 : fetch₁ d = some chain := hchain
    rw [hc] at h1
    have hcc : chain' = chain := Option.some.inj h1
    subst hcc
    have h2 : findStrike targetStrike chain' = some q := hq
    rw [hf'] at h2
    have hqq : q' = q := Option.some.inj h2
    subst hqq
    rfl
  · intro r hrmem rows q hrows hsel
    obtain ⟨d, hd, hscan⟩ := seek_results_mem hrmem
    obtain ⟨rows', q', hg', hsel', rfl⟩ := scanExpiration_found hscan
    have h1 : get_option_data side₂ (fetch₂ d) = ChainResult.chain rows := hrows
    rw [hg'] at h1
    have hrr : rows' = rows := ChainResult.chain.inj h1
    subst hrr
    have h2 : selectBest side₂
        (qualifiers side₂ spot₂ target (clampDte (d - today₂)) rows') = some q := hsel
    rw [hsel'] at h2
    have hqq : q' = q := Option.some.inj h2
    subst hqq
    have hq'rows : q' ∈ rows' := (mem_qualifiers (selectBest_mem hsel')).1
    obtain ⟨puts, calls, hraw, hliq⟩ := get_option_data_chain hg'
    have hbid : 0 < q'.bid := (mem_liquidChain (hliq ▸ hq'rows)).1
    exact ⟨hbid, rfl, rfl⟩

/-- Witness for C1_premium_rule: instantiation at a one-quote Seeker run. -/
theorem C1_premium_rule_witness :
    0 < (Quote.mk 100 2 0 5 0).bid ∧
    (mkSeekResult Side.put 150 0 365 (Quote.mk 100 2 0 5 0)).strike =
      (Quote.mk 100 2 0 5 0).strike ∧
    (mkSeekResult Side.put 150 0 365 (Quote.mk 100 2 0 5 0)).premium =
      ((Quote.mk 100 2 0 5 0).bid + (Quote.mk 100 2 0 5 0).ask) / 2 :=
  (C1_premium_rule Side.put 170 200 0 90 [] (fun _ => none)
      Side.put 150 0 0 (fun _ => RawFetch.ok [Quote.mk 100 2 0 5 0] []) [365]).2
    (mkSeekResult Side.put 150 0 365 (Quote.mk 100 2 0 5 0))
    (by with_unfolding_all decide)
    [Quote.mk 100 2 0 5 0] (Quote.mk 100 2 0 5 0)
    (by with_unfolding_all decide) (by with_unfolding_all decide)

/-- C2: in the Seeker, when the fetched chain of an expiration is non-empty,
an empty qualifier set contributes no result (the scan of the remaining
expirations is unchanged), and a found result carries the strike of some
qualifier that is minimal among qualifiers on the PUT side and maximal on the
CALL side. -/
theorem C2_safest_strike (side : Side) (spot target : ℚ) (today d : Int)
    (fetch : Int → RawFetch) (ds : List Int) (rows : List Quote)
    (hg : get_option_data side (fetch d) = ChainResult.chain rows) :
    (qualifiers side spot target (clampDte (d - today)) rows = [] →
      seek side spot target today fetch (d :: ds) =
        seek side spot target today fetch ds) ∧
    (∀ r, scanExpiration side spot target today d (fetch d) = StepOutcome.found r →
      r.strike ∈ (qualifiers side spot target (clampDte (d - today)) rows).map
        Quote.strike ∧
      (∀ q ∈ qualifiers side spot target (clampDte (d - today)) rows,
        (side = Side.put → r.strike ≤ q.strike) ∧
        (side = Side.call → q.strike ≤ r.strike))) := by
  constructor
  · intro hq
    exact seek_cons_skipped (scanExpiration_skipped_of_no_qualifier hg hq)
  · intro r hr
    obtain ⟨rows', q', hg', hsel', rfl⟩ := scanExpiration_found hr
    rw [hg] at hg'
    have hrr : rows = rows' := ChainResult.chain.inj hg'
    subst hrr
    have hql := selectBest_mem hsel'
    constructor
    · exact List.mem_map_of_mem _ hql
    · intro q hqmem
      have hle := selectBest_le hsel' q hqmem
      constructor
      · intro hside; subst hside; exact hle
      · intro hside; subst hside; exact hle

/-- Witness for C2_safest_strike: PUT qualifiers at strikes 80, 85, 90; the
selected row's strike is at most 85. -/
theorem C2_safest_strike_witness :
    (mkSeekResult Side.put 100 0 365 (Quote.mk 80 2 2 1 0)).strike ≤
      (Quote.mk 85 2 2 1 0).strike :=
  (((C2_safest_strike Side.put 100 0 0 365
      (fun _ => RawFetch.ok
        [Quote.mk 80 2 2 1 0, Quote.mk 85 2 2 1 0, Quote.mk 90 2 2 1 0] [])
      [] [Quote.mk 80 2 2 1 0, Quote.mk 85 2 2 1 0, Quote.mk 90 2 2 1 0]
      (by with_unfolding_all decide)).2
    (mkSeekResult Side.put 100 0 365 (Quote.mk 80 2 2 1 0))
    (by with_unfolding_all decide)).2
    (Quote.mk 85 2 2 1 0) (by with_unfolding_all decide)).1 rfl

/-- C3, counterexample: the Reporter appends a row whose premium is 0 — a
quote with `bid = ask = lastPrice = 0` falls back to `lastPrice = 0` and no
positivity exclusion is applied before the row is emitted. -/
theorem C3_counterexample :
    report Side.put 170 200 0 90 [30] (fun _ => some [Quote.mk 170 0 0 0 0]) =
      [RepRow.mk 30 30 0 0 170 0] ∧
    ¬ (0 < (RepRow.mk 30 30 0 0 170 0).premium) := by
  with_unfolding_all decide

theorem seek_row_pos {side : Side} {spot target : ℚ} {today : Int}
    {fetch : Int → RawFetch} {ds : List Int}
    (hspot : 0 < spot) (hok : ∀ d ∈ ds, quotesOk (fetch d) = true) :
    ∀ r ∈ (seek side spot target today fetch ds).results,
      0 < r.premium ∧ 0 < r.capital := by
  intro r hr
  obtain ⟨d, hd, hscan⟩ := seek_results_mem hr
  obtain ⟨rows, q, hg, hsel, rfl⟩ := scanExpiration_found hscan
  have hq : q ∈ rows := (mem_qualifiers (selectBest_mem hsel)).1
  obtain ⟨puts, calls, hraw, hliq⟩ := get_option_data_chain hg
  have hm := mem_liquidChain (hliq ▸ hq)
  have hbid : 0 < q.bid := hm.1
  have hok' := hok d hd
  rw [hraw] at hok'
  simp only [quotesOk, List.all_eq_true] at hok'
  have hqa := hok' q hm.2
  simp only [Bool.and_eq_true, decide_eq_true_eq] at hqa
  constructor
  · show 0 < (q.bid + q.ask) / 2
    have hba : 0 < q.bid + q.ask := by linarith [hqa.1]
    exact div_pos hba (by norm_num)
  · show 0 < seekerCapital side spot q
    cases side
    · simpa [seekerCapital] using hqa.2
    · simpa [seekerCapital] using hspot

/-- C3 (amended): in the Seeker every result row has positive premium and
positive capital, given positive spot and well-formed quotes (ask ≥ 0,
strike > 0) — the `bid > 0` filter makes the mid premium positive; the
Reporter applies no such exclusion (see the counterexample). -/
theorem C3_seeker_positive (side : Side) (spot target : ℚ) (today : Int)
    (fetch : Int → RawFetch) (ds : List Int)
    (hspot : 0 < spot) (hok : ∀ d ∈ ds, quotesOk (fetch d) = true) :
    ∀ r ∈ (seek side spot target today fetch ds).results,
      0 < r.premium ∧ 0 < r.capital :=
  seek_row_pos hspot hok

/-- Witness for C3_seeker_positive at a concrete one-quote run. -/
theorem C3_seeker_positive_witness :
    0 < (mkSeekResult Side.put 150 0 365 (Quote.mk 100 2 0 5 0)).premium ∧
    0 < (mkSeekResult Side.put 150 0 365 (Quote.mk 100 2 0 5 0)).capital :=
  C3_seeker_positive Side.put 150 0 0
    (fun _ => RawFetch.ok [Quote.mk 100 2 0 5 0] []) [365]
    (by norm_num) (by with_unfolding_all decide)
    (mkSeekResult Side.put 150 0 365 (Quote.mk 100 2 0 5 0))
    (by with_unfolding_all decide)

/-- C4, counterexample: on an input yielding two derived rows, the Reporter's
entire output is the bare table of the rows — no component of it singles out
a best row — while the spec's recommendation rule would select the second
row, whose annualized return is larger. -/
theorem C4_counterexample :
    reportDisplay Side.put 100 200 0 400 [365, 73]
        (fun _ => some [Quote.mk 100 1 1 1 0]) =
      RepDisplay.table [RepRow.mk 365 365 0 1 100 1, RepRow.mk 73 73 0 1 100 5] ∧
    specBestRow [RepRow.mk 365 365 0 1 100 1, RepRow.mk 73 73 0 1 100 5] =
      some (RepRow.mk 73 73 0 1 100 5) ∧
    RepRow.mk 73 73 0 1 100 5 ≠ RepRow.mk 365 365 0 1 100 1 := by
  with_unfolding_all decide

/-- C4 (amended): the Reporter returns only the ordered rows — one derived
row per admitted expiration in input order — and computes no best-row
recommendation; when no row is collected the output is the no-contracts
warning, not an error. -/
theorem C4_rows_only (side : Side) (targetStrike spot : ℚ) (today maxDays : Int)
    (exps : List Int) (fetch : Int → Option (List Quote)) :
    report side targetStrike spot today maxDays exps fetch =
      (analyzeDates today maxDays exps).filterMap
        (fun d => (fetch d).bind (reporterRow side targetStrike spot today d)) ∧
    (report side targetStrike spot today maxDays exps fetch = [] →
      reportDisplay side targetStrike spot today maxDays exps fetch =
        RepDisplay.warnNoContracts) ∧
    (report side targetStrike spot today maxDays exps fetch ≠ [] →
      reportDisplay side targetStrike spot today maxDays exps fetch =
        RepDisplay.table (report side targetStrike spot today maxDays exps fetch)) := by
  refine ⟨report_eq _ _ _ _ _ _ _, ?_, ?_⟩
  · intro h
    simp [reportDisplay, h]
  · intro h
    have hne : (report side targetStrike spot today maxDays exps fetch).isEmpty = false := by
      cases hrep : report side targetStrike spot today maxDays exps fetch with
      | nil => exact absurd hrep h
      | cons a l => rfl
    simp [reportDisplay, hne]

/-- Witness for C4_rows_only: an empty scan yields the warning outcome. -/
theorem C4_rows_only_witness :
    reportDisplay Side.put 170 200 0 90 [] (fun _ => none) =
      RepDisplay.warnNoContracts :=
  (C4_rows_only Side.put 170 200 0 90 [] (fun _ => none)).2.1
    (by with_unfolding_all decide)

/-- C5: the Seeker halts on the first rate-limited expiration: with no
rate-limit signal among the earlier expirations and a rate-limit signal at
`d`, scanning `earlier ++ d :: later` returns exactly the results collected
from `earlier` together with the distinct rate-limited flag (the expirations
in `later` are never examined), and the scan of `earlier` alone is not
flagged. -/
theorem C5_rate_limit_halts (side : Side) (spot target : ℚ) (today : Int)
    (fetch : Int → RawFetch) (earlier : List Int) (d : Int) (later : List Int)
    (hd : scanExpiration side spot target today d (fetch d) = StepOutcome.rateLimited)
    (hpre : ∀ e ∈ earlier,
      scanExpiration side spot target today e (fetch e) ≠ StepOutcome.rateLimited) :
    seek side spot target today fetch (earlier ++ d :: later) =
      { results := (seek side spot target today fetch earlier).results,
        rateLimited := true } ∧
    (seek side spot target today fetch earlier).rateLimited = false :=
  seek_halt earlier later hd hpre

/-- Witness for C5_rate_limit_halts: a successful expiration at day 30, a
rate-limit exception at day 60, an unscanned day 90. -/
theorem C5_rate_limit_halts_witness :
    seek Side.put 100 0 0
      (fun e => if e = 30 then RawFetch.ok [Quote.mk 80 2 2 1 0] []
                else RawFetch.exn "Too Many Requests")
      ([30] ++ 60 :: [90]) =
      { results :=
          (seek Side.put 100 0 0
            (fun e => if e = 30 then RawFetch.ok [Quote.mk 80 2 2 1 0] []
                      else RawFetch.exn "Too Many Requests") [30]).results,
        rateLimited := true } ∧
    (seek Side.put 100 0 0
      (fun e => if e = 30 then RawFetch.ok [Quote.mk 80 2 2 1 0] []
                else RawFetch.exn "Too Many Requests") [30]).rateLimited = false :=
  C5_rate_limit_halts Side.put 100 0 0
    (fun e => if e = 30 then RawFetch.ok [Quote.mk 80 2 2 1 0] []
              else RawFetch.exn "Too Many Requests")
    [30] 60 [90]
    (by with_unfolding_all decide) (by with_unfolding_all decide)

/-- C6: every derived row of either pipeline has daysToExpiry at least 1 —
the raw day difference is clamped to 1 before any use. -/
theorem C6_dte_at_least_one
    (side₁ : Side) (targetStrike spot₁ : ℚ) (today₁ maxDays : Int)
    (exps : List Int) (fetch₁ : Int → Option (List Quote))
    (side₂ : Side) (spot₂ target : ℚ) (today₂ : Int)
    (fetch₂ : Int → RawFetch) (ds : List Int) :
    (∀ row ∈ report side₁ targetStrike spot₁ today₁ maxDays exps fetch₁,
      1 ≤ row.dte) ∧
    (∀ r ∈ (seek side₂ spot₂ target today₂ fetch₂ ds).results, 1 ≤ r.dte) := by
  constructor
  · intro row hrow
    obtain ⟨d, hd, chain, hc, hr⟩ := report_mem hrow
    obtain ⟨q, hf, rfl⟩ := reporterRow_inv hr
    exact clampDte_one_le _
  · intro r hr
    obtain ⟨d, hd, hscan⟩ := seek_results_mem hr
    obtain ⟨rows, q, hg, hsel, rfl⟩ := scanExpiration_found hscan
    exact clampDte_one_le _

/-- Witness for C6_dte_at_least_one on a concrete reporter row. -/
theorem C6_dte_at_least_one_witness :
    1 ≤ (RepRow.mk 30 30 0 0 170 0).dte :=
  (C6_dte_at_least_one Side.put 170 200 0 90 [30]
      (fun _ => some [Quote.mk 170 0 0 0 0])
      Side.put 150 0 0 (fun _ => RawFetch.exn "x") []).1
    (RepRow.mk 30 30 0 0 170 0) (by with_unfolding_all decide)

/-- C7: for every surviving row, the annualized return equals
`(premium / capital) * (365 / dte) * 100`, where the capital is the target
strike (PUT) or the spot price (CALL) in the Reporter and the row's strike
(PUT) or the spot price (CALL) in the Seeker; the identity is unconditional —
no cap is applied for small dte. -/
theorem C7_annualized_formula
    (side₁ : Side) (targetStrike spot₁ : ℚ) (today₁ maxDays : Int)
    (exps : List Int) (fetch₁ : Int → Option (List Quote))
    (side₂ : Side) (spot₂ target : ℚ) (today₂ : Int)
    (fetch₂ : Int → RawFetch) (ds : List Int) :
    (∀ row ∈ report side₁ targetStrike spot₁ today₁ maxDays exps fetch₁,
      row.capital = (if side₁ = Side.put then targetStrike else spot₁) ∧
      row.annualized =
        (row.premium / row.capital) * (365 / (row.dte : ℚ)) * 100) ∧
    (∀ r ∈ (seek side₂ spot₂ target today₂ fetch₂ ds).results,
      r.capital = (if side₂ = Side.put then r.strike else spot₂) ∧
      r.roiAnnual = (r.premium / r.capital) * (365 / (r.dte : ℚ)) * 100) := by
  constructor
  · intro row hrow
    obtain ⟨d, hd, chain, hc, hr⟩ := report_mem hrow
    obtain ⟨q, hf, rfl⟩ := reporterRow_inv hr
    exact ⟨rfl, rfl⟩
  · intro r hr
    obtain ⟨d, hd, hscan⟩ := seek_results_mem hr
    obtain ⟨rows, q, hg, hsel, rfl⟩ := scanExpiration_found hscan
    exact ⟨rfl, rfl⟩

/-- Witness for C7_annualized_formula at dte = 1: the annualized value 365%
is reported uncapped. -/
theorem C7_annualized_formula_witness :
    (RepRow.mk 1 1 0 1 100 365).capital =
      (if Side.put = Side.put then (100 : ℚ) else 200) ∧
    (RepRow.mk 1 1 0 1 100 365).annualized =
      ((RepRow.mk 1 1 0 1 100 365).premium / (RepRow.mk 1 1 0 1 100 365).capital) *
        (365 / ((RepRow.mk 1 1 0 1 100 365).dte : ℚ)) * 100 :=
  (C7_annualized_formula Side.put 100 200 0 30 [1]
      (fun _ => some [Quote.mk 100 1 1 1 0])
      Side.put 150 0 0 (fun _ => RawFetch.exn "x") []).1
    (RepRow.mk 1 1 0 1 100 365) (by with_unfolding_all decide)

/-- C8, counterexample: no InvalidInput validation exists — a PUT run with
target strike 0 emits a surviving row whose capitalRequired is 0, and the
return-on-capital division is reached with a zero divisor instead of the
evaluation failing (the embedding's totalized rational division yields 0
there; the Python code divides by zero). -/
theorem C8_counterexample :
    report Side.put 0 100 0 90 [30] (fun _ => some [Quote.mk 0 1 1 1 0]) =
      [RepRow.mk 30 30 0 1 0 0] ∧
    (RepRow.mk 30 30 0 1 0 0).capital = 0 := by
  with_unfolding_all decide

/-- C8 (amended): neither pipeline signals InvalidInput. The divisors that
are in fact never zero are the clamped dte in both pipelines and the
Seeker's capital under positive spot and well-formed quotes; the Reporter's
capital divisor is not validated (see the counterexample). -/
theorem C8_divisors (side₁ : Side) (targetStrike spot₁ : ℚ) (today₁ maxDays : Int)
    (exps : List Int) (fetch₁ : Int → Option (List Quote))
    (side₂ : Side) (spot₂ target : ℚ) (today₂ : Int)
    (fetch₂ : Int → RawFetch) (ds : List Int)
    (hspot : 0 < spot₂) (hok : ∀ d ∈ ds, quotesOk (fetch₂ d) = true) :
    (∀ row ∈ report side₁ targetStrike spot₁ today₁ maxDays exps fetch₁,
      ((row.dte : Int) : ℚ) ≠ 0) ∧
    (∀ r ∈ (seek side₂ spot₂ target today₂ fetch₂ ds).results,
      r.capital ≠ 0 ∧ ((r.dte : Int) : ℚ) ≠ 0) := by
  constructor
  · intro row hrow
    obtain ⟨d, hd, chain, hc, hr⟩ := report_mem hrow
    obtain ⟨q, hf, rfl⟩ := reporterRow_inv hr
    have h1 : 1 ≤ clampDte (d - today₁) := clampDte_one_le _
    show ((clampDte (d - today₁) : Int) : ℚ) ≠ 0
    exact_mod_cast (by omega : clampDte (d - today₁) ≠ 0)
  · intro r hr
    refine ⟨ne_of_gt (seek_row_pos hspot hok r hr).2, ?_⟩
    obtain ⟨d, hd, hscan⟩ := seek_results_mem hr
    obtain ⟨rows, q, hg, hsel, rfl⟩ := scanExpiration_found hscan
    have h1 : 1 ≤ clampDte (d - today₂) := clampDte_one_le _
    show ((clampDte (d - today₂) : Int) : ℚ) ≠ 0
    exact_mod_cast (by omega : clampDte (d - today₂) ≠ 0)

/-- Witness for C8_divisors on a concrete seeker row. -/
theorem C8_divisors_witness :
    (mkSeekResult Side.put 150 0 365 (Quote.mk 100 2 0 5 0)).capital ≠ 0 ∧
    (((mkSeekResult Side.put 150 0 365 (Quote.mk 100 2 0 5 0)).dte : Int) : ℚ) ≠ 0 :=
  (C8_divisors Side.put 170 200 0 90 [] (fun _ => none)
      Side.put 150 0 0 (fun _ => RawFetch.ok [Quote.mk 100 2 0 5 0] []) [365]
      (by norm_num) (by with_unfolding_all decide)).2
    (mkSeekResult Side.put 150 0 365 (Quote.mk 100 2 0 5 0))
    (by with_unfolding_all decide)

/-- C9: a fetch raising a non-rate-limit exception and a successful fetch
with no liquid quote produce the same `None` outcome from `get_option_data`,
the same skipped step, and the same continuation of the scan — the two skip
reasons are indistinguishable to the caller. -/
theorem C9_skip_indistinguishable (side : Side) (spot target : ℚ) (today d : Int)
    (msg : String) (puts calls : List Quote)
    (hmsg : strContains msg rateLimitMsg = false)
    (hempty : liquidChain side puts calls = []) :
    get_option_data side (RawFetch.exn msg) = ChainResult.noChain ∧
    get_option_data side (RawFetch.ok puts calls) = ChainResult.noChain ∧
    scanExpiration side spot target today d (RawFetch.exn msg) =
      StepOutcome.skipped ∧
    scanExpiration side spot target today d (RawFetch.ok puts calls) =
      StepOutcome.skipped ∧
    (∀ (fetch : Int → RawFetch) (ds : List Int),
      fetch d = RawFetch.exn msg ∨ fetch d = RawFetch.ok puts calls →
      seek side spot target today fetch (d :: ds) =
        seek side spot target today fetch ds) := by
  have h1 : get_option_data side (RawFetch.exn msg) = ChainResult.noChain := by
    simp [get_option_data, hmsg]
  have h2 : get_option_data side (RawFetch.ok puts calls) = ChainResult.noChain := by
    simp [get_option_data, hempty]
  have h3 : scanExpiration side spot target today d (RawFetch.exn msg) =
      StepOutcome.skipped := by
    unfold scanExpiration; rw [h1]
  have h4 : scanExpiration side spot target today d (RawFetch.ok puts calls) =
      StepOutcome.skipped := by
    unfold scanExpiration; rw [h2]
  refine ⟨h1, h2, h3, h4, ?_⟩
  intro fetch ds hor
  rcases hor with hf | hf
  · exact seek_cons_skipped (by rw [hf]; exact h3)
  · exact seek_cons_skipped (by rw [hf]; exact h4)

/-- Witness for C9_skip_indistinguishable: a "boom" exception at day 7 skips
that day and continues. -/
theorem C9_skip_indistinguishable_witness :
    seek Side.put 100 0 0 (fun _ => RawFetch.exn "boom") (7 :: []) =
      seek Side.put 100 0 0 (fun _ => RawFetch.exn "boom") [] :=
  (C9_skip_indistinguishable Side.put 100 0 0 7 "boom" [Quote.mk 100 0 1 1 0] []
      (by decide) (by with_unfolding_all decide)).2.2.2.2
    (fun _ => RawFetch.exn "boom") [] (Or.inl rfl)

/-- C10: the Reporter's horizon filter admits only strictly positive day
differences, so the clamp branch is never taken: every row's daysToExpiry
equals the raw day difference of its expiration from `today`. -/
theorem C10_no_clamp (side : Side) (targetStrike spot : ℚ) (today maxDays : Int)
    (exps : List Int) (fetch : Int → Option (List Quote)) :
    (∀ d ∈ analyzeDates today maxDays exps,
      0 < d - today ∧ clampDte (d - today) = d - today) ∧
    (∀ row ∈ report side targetStrike spot today maxDays exps fetch,
      0 < row.dte ∧ row.dte = row.expDay - today) := by
  constructor
  · intro d hd
    have h := (mem_analyzeDates hd).2.1
    exact ⟨h, clampDte_of_pos h⟩
  · intro row hrow
    obtain ⟨d, hd, chain, hc, hr⟩ := report_mem hrow
    obtain ⟨q, hf, rfl⟩ := reporterRow_inv hr
    have h := (mem_analyzeDates hd).2.1
    constructor
    · show 0 < clampDte (d - today)
      rw [clampDte_of_pos h]; exact h
    · show clampDte (d - today) = d - today
      exact clampDte_of_pos h

/-- Witness for C10_no_clamp on a concrete reporter row. -/
theorem C10_no_clamp_witness :
    0 < (RepRow.mk 30 30 0 0 170 0).dte ∧
    (RepRow.mk 30 30 0 0 170 0).dte = (RepRow.mk 30 30 0 0 170 0).expDay - 0 :=
  (C10_no_clamp Side.put 170 200 0 90 [30]
      (fun _ => some [Quote.mk 170 0 0 0 0])).2
    (RepRow.mk 30 30 0 0 170 0) (by with_unfolding_all decide)
